import Mathlib

/-!
# masked_fastmail: a shallow embedding of `main.go`

The command-line tool of `main.go` is embedded as pure functions that return,
next to their Go result, the ordered list of externally visible events they
produce (provider calls, clipboard writes, lines on stdout and stderr).
The external collaborators (the Fastmail client, the cobra command, the
clipboard) are parameters.
-/

set_option autoImplicit false

namespace MaskedFastmail

/-! ## Data model -/

/-- Modelled from the spec: the declaration `type AliasState string` lives outside
`main.go`; the code formats a state with `%s` and uses it as a map key, so a state
is a string, and a state outside the four constants can occur. -/
abbrev AliasState := String

/-- Modelled from the spec: the constant `AliasEnabled` is declared outside `main.go`;
the spec names the variant Enabled. -/
def AliasEnabled : AliasState := "enabled"

/-- Modelled from the spec: the constant `AliasPending` is declared outside `main.go`;
the spec names the variant Pending. -/
def AliasPending : AliasState := "pending"

/-- Modelled from the spec: the constant `AliasDisabled` is declared outside `main.go`;
the spec names the variant Disabled. -/
def AliasDisabled : AliasState := "disabled"

/-- Modelled from the spec: the constant `AliasDeleted` is declared outside `main.go`;
the spec names the variant Deleted. -/
def AliasDeleted : AliasState := "deleted"

/-- Modelled from the spec: the struct `MaskedEmailInfo` is declared outside `main.go`;
`main.go` reads its fields `Email` and `State` only, the two attributes the spec lists. -/
structure MaskedEmailInfo where
  Email : String
  State : AliasState
deriving DecidableEq, Repr

/-- A Go `error` value. `external` is an error produced outside `main.go`;
`errorString` is the result of `fmt.Errorf` without `%w`; `wrapError` is the result of
`fmt.Errorf` with one `%w` verb: it stores the formatted message and the wrapped error. -/
inductive GoError where
  | external (msg : String)
  | errorString (s : String)
  | wrapError (msg : String) (err : GoError)
deriving DecidableEq, Repr

/-- The method `Error()` of an error value. -/
def GoError.Error : GoError → String
  | .external msg => msg
  | .errorString s => s
  | .wrapError msg _ => msg

/-- The method `Unwrap()` as seen by `errors.Unwrap`. -/
def GoError.Unwrap : GoError → Option GoError
  | .wrapError _ err => some err
  | _ => none

/-- The call `fmt.Errorf(pre + "%w", err)` for a literal text `pre`. -/
def errorfW (pre : String) (err : GoError) : GoError :=
  .wrapError (pre ++ err.Error) err

/-- An externally visible effect of the program, in the order of execution.
A `*MaskedEmailInfo` argument is `none` for the nil pointer. -/
inductive Event where
  | NewFastmailClient
  | GetAliasByEmail (email : String)
  | UpdateAliasStatus (target : Option MaskedEmailInfo) (state : AliasState)
  | GetAliases (identifier : String)
  | CreateAlias (identifier : String)
  | ClipboardWriteAll (text : String)
  | Stdout (text : String)
  | Stderr (text : String)
deriving DecidableEq, Repr

/-- The methods of `*FastmailClient` that `main.go` calls; the client is defined
outside `main.go`, so its answers are parameters. A returned `*MaskedEmailInfo`
is `none` for the nil pointer. -/
structure FastmailClient where
  GetAliasByEmail : String → Except GoError (Option MaskedEmailInfo)
  UpdateAliasStatus : Option MaskedEmailInfo → AliasState → Option GoError
  GetAliases : String → Except GoError (List MaskedEmailInfo)
  CreateAlias : String → Except GoError (Option MaskedEmailInfo)

/-- What `main.go` uses of `*cobra.Command`: the usage text and the boolean flag
getter `cmd.Flags().GetBool(name)`, which returns a value and an error. -/
structure Command where
  UsageString : String
  GetBool : String → Bool × Option GoError

/-- The process environment of one run: the constructor `NewFastmailClient()` and
`clipboard.WriteAll`. -/
structure Env where
  NewFastmailClient : Except GoError FastmailClient
  ClipboardWriteAll : String → Option GoError

/-- How a Go function call ends: it returns its `error` result (`none` is nil) or the
goroutine panics (nil pointer dereference). -/
inductive Outcome where
  | returned (err : Option GoError)
  | panicked
deriving DecidableEq, Repr

/-! ## `statePriority` -/

/-- The map literal `statePriority`. -/
def statePriority : List (AliasState × Int) :=
  [(AliasEnabled, 0), (AliasPending, 1), (AliasDisabled, 2), (AliasDeleted, 3)]

/-- The Go index expression `m[k]` on a `map[AliasState]int`: the zero value `0`
when the key is absent. -/
def mapIndex (m : List (AliasState × Int)) (k : AliasState) : Int :=
  (m.lookup k).getD 0

/-- The second result of the Go form `_, ok := m[k]`. -/
def mapHas (m : List (AliasState × Int)) (k : AliasState) : Bool :=
  (m.lookup k).isSome

/-! ## `selectPreferredAlias` -/

/-- The first loop of `selectPreferredAlias` (`for _, a := range aliases`): one
warning on stderr per alias whose state is not a key of `statePriority`. -/
def warnUnknownStates : List MaskedEmailInfo → List Event
  | [] => []
  | a :: rest =>
    if mapHas statePriority a.State then warnUnknownStates rest
    else Event.Stderr ("Warning: unknown alias state: " ++ a.State ++ "\n")
      :: warnUnknownStates rest

/-- The second loop of `selectPreferredAlias` (`for i := 1; i < len(aliases); i++`).
The first argument is the part of the slice from index `i` on, so its head is
`aliases[i]`; `selected` is the index the pointer `selected` points at. -/
def selectLoop : List MaskedEmailInfo → Nat → Nat → Int → Nat
  | [], _, selected, _ => selected
  | a :: rest, i, selected, selectedPriority =>
    let priority := mapIndex statePriority a.State
    if priority < selectedPriority then selectLoop rest (i + 1) i priority
    else selectLoop rest (i + 1) selected selectedPriority

/-- The state after a call of `selectPreferredAlias`: the contents of the slice it
was given, the returned pointer (`none` is nil, `some i` is `&aliases[i]`) and the
events produced. -/
structure SelectResult where
  aliases : List MaskedEmailInfo
  selected : Option Nat
  events : List Event
deriving DecidableEq, Repr

/-- The function `selectPreferredAlias`. -/
def selectPreferredAlias (aliases : List MaskedEmailInfo) : SelectResult :=
  match aliases with
  | [] => { aliases := aliases, selected := none, events := [] }
  | first :: rest =>
    { aliases := aliases
      selected := some (selectLoop rest 1 0 (mapIndex statePriority first.State))
      events := warnUnknownStates aliases }

/-- Dereference of the pointer returned by `selectPreferredAlias`. -/
def SelectResult.deref (r : SelectResult) : Option MaskedEmailInfo :=
  match r.selected with
  | none => none
  | some i => r.aliases[i]?

/-! ## The command handlers -/

/-- The function `copyToClipboard`. -/
def copyToClipboard (env : Env) (text : String) : Option GoError × List Event :=
  match env.ClipboardWriteAll text with
  | some err => (some (errorfW "clipboard operation failed: " err), [Event.ClipboardWriteAll text])
  | none => (none, [Event.ClipboardWriteAll text])

/-- The `switch` of `handleStateUpdate` that chooses `newState`; a Go `switch` without
a tag runs the first case that is true, and `var newState AliasState` starts as the
empty string. -/
def newStateOf (enable disable delete : Bool) : AliasState :=
  if enable then AliasEnabled
  else if disable then AliasDisabled
  else if delete then AliasDeleted
  else ""

/-- The function `handleStateUpdate`. -/
def handleStateUpdate (client : FastmailClient) (identifier : String)
    (enable disable delete : Bool) : Option GoError × List Event :=
  let newState := newStateOf enable disable delete
  match client.GetAliasByEmail identifier with
  | .error err =>
    (some (errorfW "failed to get alias: " err), [Event.GetAliasByEmail identifier])
  | .ok targetAlias =>
    match client.UpdateAliasStatus targetAlias newState with
    | some err =>
      (some (errorfW "failed to update alias status: " err),
        [Event.GetAliasByEmail identifier, Event.UpdateAliasStatus targetAlias newState])
    | none =>
      (none, [Event.GetAliasByEmail identifier, Event.UpdateAliasStatus targetAlias newState])

/-- Lines 174 to 180 of `handleAliasCreation`: print the selected alias, try the
clipboard, return nil. `selectedAlias` is a pointer; reading `selectedAlias.Email`
through the nil pointer panics. `before` are the events produced so far. -/
def presentSelected (env : Env) (selectedAlias : Option MaskedEmailInfo)
    (before : List Event) : Outcome × List Event :=
  match selectedAlias with
  | none => (.panicked, before)
  | some sel =>
    let line := Event.Stdout (sel.Email ++ " (state: " ++ sel.State ++ ")")
    match copyToClipboard env sel.Email with
    | (some err, evs) =>
      (.returned none, before ++ [line] ++ evs ++
        [Event.Stderr ("\nWarning: Could not copy to clipboard: " ++ err.Error ++ "\n")])
    | (none, evs) =>
      (.returned none, before ++ [line] ++ evs ++ [Event.Stdout " (copied to clipboard)\n"])

/-- The listing printed by `handleAliasCreation` when more than one alias was found. -/
def listFound (aliases : List MaskedEmailInfo) (identifier : String) : List Event :=
  [Event.Stdout ("Found " ++ toString aliases.length ++ " aliases for " ++ identifier ++ ":\n")]
    ++ aliases.map (fun a => Event.Stdout ("- " ++ a.Email ++ " (state: " ++ a.State ++ ")\n"))
    ++ [Event.Stdout "\nSelected alias:\n"]

/-- The function `handleAliasCreation`. -/
def handleAliasCreation (env : Env) (client : FastmailClient) (identifier : String) :
    Outcome × List Event :=
  match client.GetAliases identifier with
  | .error err =>
    (.returned (some (errorfW "failed to get aliases: " err)), [Event.GetAliases identifier])
  | .ok aliases =>
    let r := selectPreferredAlias aliases
    let evs := [Event.GetAliases identifier] ++ r.events
    match r.selected with
    | none =>
      let evs := evs ++
        [Event.Stdout ("No alias found for " ++ identifier ++ ", creating new one...\n"),
          Event.CreateAlias identifier]
      match client.CreateAlias identifier with
      | .error err => (.returned (some (errorfW "failed to create alias: " err)), evs)
      | .ok newAlias => presentSelected env newAlias evs
    | some _ =>
      if r.aliases.length > 1 then
        presentSelected env r.deref (evs ++ listFound r.aliases identifier)
      else presentSelected env r.deref evs

/-- The function `runMaskedFastmail`. The errors of `GetBool` are discarded, as in the
source (`enable, _ := ...`). -/
def runMaskedFastmail (env : Env) (cmd : Command) (args : List String) :
    Outcome × List Event :=
  if args.length ≠ 1 then
    (.returned (some (.errorString
      ("exactly one URL or alias must be specified\n\n" ++ cmd.UsageString))), [])
  else
    match env.NewFastmailClient with
    | .error err =>
      (.returned (some (errorfW "failed to initialize client: " err)), [Event.NewFastmailClient])
    | .ok client =>
      let identifier := args.getD 0 ""
      let enable := (cmd.GetBool "enable").1
      let disable := (cmd.GetBool "disable").1
      let delete := (cmd.GetBool "delete").1
      if enable || disable || delete then
        let r := handleStateUpdate client identifier enable disable delete
        (.returned r.1, Event.NewFastmailClient :: r.2)
      else
        let r := handleAliasCreation env client identifier
        (r.1, Event.NewFastmailClient :: r.2)

/-! ## Observations on an event list -/

/-- The update requests in an event list, in order. -/
def updateRequests : List Event → List (Option MaskedEmailInfo × AliasState)
  | [] => []
  | .UpdateAliasStatus target state :: rest => (target, state) :: updateRequests rest
  | _ :: rest => updateRequests rest

/-- The identifiers of the `CreateAlias` calls in an event list, in order. -/
def createRequests : List Event → List String
  | [] => []
  | .CreateAlias identifier :: rest => identifier :: createRequests rest
  | _ :: rest => createRequests rest

/-- The identifiers of the `GetAliases` calls in an event list, in order. -/
def searchRequests : List Event → List String
  | [] => []
  | .GetAliases identifier :: rest => identifier :: searchRequests rest
  | _ :: rest => searchRequests rest

/-- The four states that are keys of `statePriority`. -/
def knownStates : List AliasState :=
  [AliasEnabled, AliasPending, AliasDisabled, AliasDeleted]

/-- Exactly one of three flags is set. -/
def exactlyOne (enable disable delete : Bool) : Prop :=
  (enable = true ∧ disable = false ∧ delete = false) ∨
  (enable = false ∧ disable = true ∧ delete = false) ∨
  (enable = false ∧ disable = false ∧ delete = true)

/-- The priority the selection loop reads for an alias: `statePriority[a.State]`. -/
def priorityOf (a : MaskedEmailInfo) : Int :=
  mapIndex statePriority a.State

/-- Index `k` holds an alias whose priority is minimal in `aliases`, and every alias
at a smaller index has a strictly larger priority. -/
def IsFirstMin (aliases : List MaskedEmailInfo) (k : Nat) : Prop :=
  ∃ sel, aliases[k]? = some sel ∧
    (∀ (j : Nat) (b : MaskedEmailInfo), aliases[j]? = some b → priorityOf sel ≤ priorityOf b) ∧
    (∀ (j : Nat) (b : MaskedEmailInfo), j < k → aliases[j]? = some b → priorityOf sel < priorityOf b)

/-- The priority as the spec words it for the code at hand: the table value for the
four known states and `0`, the default of the map, for any other state. -/
def defaultZeroPriority (s : AliasState) : Int :=
  if s = AliasEnabled then 0
  else if s = AliasPending then 1
  else if s = AliasDisabled then 2
  else if s = AliasDeleted then 3
  else 0

/-- An event that is neither a provider call nor the client construction: output on
stdout or stderr, or a clipboard write. -/
def isLocal : Event → Bool
  | .Stdout _ => true
  | .Stderr _ => true
  | .ClipboardWriteAll _ => true
  | _ => false

/-- The line that presents an alias (`"%s (state: %s)"`). -/
def presentLine (a : MaskedEmailInfo) : Event :=
  Event.Stdout (a.Email ++ " (state: " ++ a.State ++ ")")

/-- The last event of the presentation of an alias with address `email`: the warning on
stderr when the clipboard write fails, the confirmation on stdout otherwise. -/
def clipboardReport (env : Env) (email : String) : Event :=
  match env.ClipboardWriteAll email with
  | some e =>
    Event.Stderr ("\nWarning: Could not copy to clipboard: "
      ++ ("clipboard operation failed: " ++ e.Error) ++ "\n")
  | none => Event.Stdout " (copied to clipboard)\n"

/-! ## Sample collaborators -/

/-- An alias of the sample provider. -/
def sampleAlias : MaskedEmailInfo := ⟨"shop.1234@fastmail.com", AliasDisabled⟩

/-- A provider on which every call succeeds and no alias matches a search. -/
def sampleClient : FastmailClient where
  GetAliasByEmail := fun _ => .ok (some sampleAlias)
  UpdateAliasStatus := fun _ _ => none
  GetAliases := fun _ => .ok []
  CreateAlias := fun _ => .ok (some ⟨"new.5678@fastmail.com", AliasPending⟩)

/-- A provider whose lookup by address fails. -/
def lookupFailingClient : FastmailClient where
  GetAliasByEmail := fun _ => .error (.external "alias not found")
  UpdateAliasStatus := fun _ _ => none
  GetAliases := fun _ => .ok []
  CreateAlias := fun _ => .ok (some ⟨"new.5678@fastmail.com", AliasPending⟩)

/-- A provider whose search finds two aliases. -/
def foundClient : FastmailClient where
  GetAliasByEmail := fun _ => .ok (some sampleAlias)
  UpdateAliasStatus := fun _ _ => none
  GetAliases := fun _ => .ok [sampleAlias, ⟨"shop.9999@fastmail.com", AliasEnabled⟩]
  CreateAlias := fun _ => .error (.external "quota exceeded")

/-- An environment with a working clipboard. -/
def sampleEnv : Env where
  NewFastmailClient := .ok sampleClient
  ClipboardWriteAll := fun _ => none

/-- An environment whose clipboard write fails. -/
def clipboardFailingEnv : Env where
  NewFastmailClient := .ok foundClient
  ClipboardWriteAll := fun _ => some (.external "no clipboard utilities available")

/-- A command line with the three flags defined. -/
def sampleCommand (enable disable delete : Bool) : Command where
  UsageString := "Usage:\n  masked_fastmail <url>\n"
  GetBool := fun name =>
    if name = "enable" then (enable, none)
    else if name = "disable" then (disable, none)
    else if name = "delete" then (delete, none)
    else (false, some (.external ("flag accessed but not defined: " ++ name)))

/-! ## Lemmas on the selection loop -/

theorem selectLoop_isFirstMin (rest : List MaskedEmailInfo) :
    ∀ (pre : List MaskedEmailInfo) (sel : Nat) (a : MaskedEmailInfo),
      pre[sel]? = some a →
      (∀ (j : Nat) (b : MaskedEmailInfo), pre[j]? = some b → priorityOf a ≤ priorityOf b) →
      (∀ (j : Nat) (b : MaskedEmailInfo), j < sel → pre[j]? = some b → priorityOf a < priorityOf b) →
      IsFirstMin (pre ++ rest) (selectLoop rest pre.length sel (priorityOf a)) := by
  induction rest with
  | nil =>
    intro pre sel a hsel hmin hfirst
    refine ⟨a, ?_, ?_, ?_⟩
    · simpa [selectLoop] using hsel
    · intro j b hb
      exact hmin j b (by simpa using hb)
    · intro j b hj hb
      exact hfirst j b (by simpa [selectLoop] using hj) (by simpa using hb)
  | cons x rest ih =>
    intro pre sel a hsel hmin hfirst
    have hlen : sel < pre.length := by
      rcases List.getElem?_eq_some.1 hsel with ⟨h, _⟩
      exact h
    have hsplit : pre ++ x :: rest = (pre ++ [x]) ++ rest := by simp
    have hlen' : (pre ++ [x]).length = pre.length + 1 := by simp
    have hget : ∀ (j : Nat) (b : MaskedEmailInfo), (pre ++ [x])[j]? = some b →
        (j < pre.length ∧ pre[j]? = some b) ∨ (j = pre.length ∧ b = x) := by
      intro j b hb
      by_cases hj : j < pre.length
      · left
        refine ⟨hj, ?_⟩
        rw [List.getElem?_append_left hj] at hb
        exact hb
      · right
        have hj' : pre.length ≤ j := Nat.le_of_not_lt hj
        rw [List.getElem?_append_right hj'] at hb
        rcases List.getElem?_eq_some.1 hb with ⟨h, hx⟩
        have h0 : j - pre.length = 0 := by simpa using h
        constructor
        · omega
        · simpa [h0] using hx.symm
    rw [hsplit]
    unfold selectLoop
    simp only []
    by_cases hlt : mapIndex statePriority x.State < priorityOf a
    · rw [if_pos hlt, ← hlen']
      have hx : priorityOf x < priorityOf a := hlt
      apply ih (pre ++ [x]) pre.length x
      · simp
      · intro j b hb
        rcases hget j b hb with ⟨_, hb'⟩ | ⟨_, rfl⟩
        · exact le_trans (le_of_lt hx) (hmin j b hb')
        · exact le_refl _
      · intro j b hj hb
        rcases hget j b hb with ⟨_, hb'⟩ | ⟨hj', _⟩
        · exact lt_of_lt_of_le hx (hmin j b hb')
        · omega
    · rw [if_neg hlt, ← hlen']
      have hx : priorityOf a ≤ priorityOf x := not_lt.1 hlt
      apply ih (pre ++ [x]) sel a
      · rw [List.getElem?_append_left hlen]
        exact hsel
      · intro j b hb
        rcases hget j b hb with ⟨_, hb'⟩ | ⟨_, rfl⟩
        · exact hmin j b hb'
        · exact hx
      · intro j b hj hb
        rcases hget j b hb with ⟨_, hb'⟩ | ⟨hj', _⟩
        · exact hfirst j b hj hb'
        · omega

theorem selectPreferredAlias_cons_isFirstMin (first : MaskedEmailInfo)
    (rest : List MaskedEmailInfo) :
    ∃ k, (selectPreferredAlias (first :: rest)).selected = some k ∧
      IsFirstMin (first :: rest) k := by
  refine ⟨selectLoop rest 1 0 (mapIndex statePriority first.State), rfl, ?_⟩
  have h := selectLoop_isFirstMin rest [first] 0 first (by simp)
    (by
      intro j b hb
      cases j with
      | zero =>
        have : first = b := by simpa using hb
        subst this
        exact le_refl _
      | succ n => simp at hb)
    (by intro j b hj; omega)
  simpa [priorityOf] using h

theorem isFirstMin_unique (aliases : List MaskedEmailInfo) (k m : Nat)
    (hk : IsFirstMin aliases k) (hm : IsFirstMin aliases m) : k = m := by
  rcases hk with ⟨a, ha, hamin, hafirst⟩
  rcases hm with ⟨b, hb, hbmin, hbfirst⟩
  rcases Nat.lt_trichotomy k m with h | h | h
  · have h1 := hbfirst k a h ha
    have h2 := hamin m b hb
    omega
  · exact h
  · have h1 := hafirst m b h hb
    have h2 := hbmin k a ha
    omega

theorem lookup_of_known (s : AliasState) (h : s ∈ knownStates) :
    statePriority.lookup s = some (mapIndex statePriority s) := by
  simp only [knownStates, List.mem_cons, List.mem_singleton, List.not_mem_nil, or_false] at h
  rcases h with rfl | rfl | rfl | rfl <;> decide

theorem lookup_of_unknown (s : AliasState) (h : s ∉ knownStates) :
    statePriority.lookup s = none := by
  simp only [knownStates, List.mem_cons, List.mem_singleton, List.not_mem_nil, or_false,
    not_or] at h
  rcases h with ⟨h1, h2, h3, h4⟩
  have b1 : (s == AliasEnabled) = false := by simpa using h1
  have b2 : (s == AliasPending) = false := by simpa using h2
  have b3 : (s == AliasDisabled) = false := by simpa using h3
  have b4 : (s == AliasDeleted) = false := by simpa using h4
  simp only [statePriority, List.lookup, b1, b2, b3, b4]

theorem mapIndex_statePriority (s : AliasState) :
    mapIndex statePriority s = defaultZeroPriority s := by
  by_cases h1 : s = AliasEnabled
  · subst h1; decide
  · by_cases h2 : s = AliasPending
    · subst h2; decide
    · by_cases h3 : s = AliasDisabled
      · subst h3; decide
      · by_cases h4 : s = AliasDeleted
        · subst h4; decide
        · have hu : s ∉ knownStates := by
            simp [knownStates, h1, h2, h3, h4]
          simp [mapIndex, lookup_of_unknown s hu, defaultZeroPriority, h1, h2, h3, h4]

theorem selectPreferredAlias_deref_of_isFirstMin (aliases : List MaskedEmailInfo) (k : Nat)
    (sel : MaskedEmailInfo) (hk : (selectPreferredAlias aliases).selected = some k)
    (hsel : aliases[k]? = some sel) : (selectPreferredAlias aliases).deref = some sel := by
  have ha : (selectPreferredAlias aliases).aliases = aliases := by
    cases aliases <;> rfl
  simp [SelectResult.deref, hk, ha, hsel]

/-! ## Lemmas on event lists -/

theorem updateRequests_append (l1 l2 : List Event) :
    updateRequests (l1 ++ l2) = updateRequests l1 ++ updateRequests l2 := by
  induction l1 with
  | nil => rfl
  | cons e l ih => cases e <;> simp [updateRequests, ih]

theorem createRequests_append (l1 l2 : List Event) :
    createRequests (l1 ++ l2) = createRequests l1 ++ createRequests l2 := by
  induction l1 with
  | nil => rfl
  | cons e l ih => cases e <;> simp [createRequests, ih]

theorem searchRequests_append (l1 l2 : List Event) :
    searchRequests (l1 ++ l2) = searchRequests l1 ++ searchRequests l2 := by
  induction l1 with
  | nil => rfl
  | cons e l ih => cases e <;> simp [searchRequests, ih]

theorem no_requests_of_local (l : List Event) (h : ∀ e ∈ l, isLocal e = true) :
    updateRequests l = [] ∧ createRequests l = [] ∧ searchRequests l = [] := by
  induction l with
  | nil => exact ⟨rfl, rfl, rfl⟩
  | cons e l ih =>
    have he := h e (List.mem_cons_self e l)
    have hl := ih (fun x hx => h x (List.mem_cons_of_mem e hx))
    cases e <;> simp [isLocal] at he <;>
      simpa [updateRequests, createRequests, searchRequests] using hl

theorem warnUnknownStates_local (aliases : List MaskedEmailInfo) :
    ∀ e ∈ warnUnknownStates aliases, isLocal e = true := by
  induction aliases with
  | nil => intro e he; simp [warnUnknownStates] at he
  | cons a rest ih =>
    intro e he
    unfold warnUnknownStates at he
    split at he
    · exact ih e he
    · rcases List.mem_cons.1 he with rfl | h
      · rfl
      · exact ih e h

theorem listFound_local (aliases : List MaskedEmailInfo) (identifier : String) :
    ∀ e ∈ listFound aliases identifier, isLocal e = true := by
  intro e he
  simp only [listFound, List.mem_append, List.mem_singleton, List.mem_map] at he
  rcases he with (rfl | ⟨a, _, rfl⟩) | rfl <;> rfl

theorem presentSelected_some (env : Env) (sel : MaskedEmailInfo) (before : List Event) :
    presentSelected env (some sel) before =
      (.returned none,
        before ++ [presentLine sel, Event.ClipboardWriteAll sel.Email,
          clipboardReport env sel.Email]) := by
  unfold presentSelected copyToClipboard clipboardReport presentLine
  cases h : env.ClipboardWriteAll sel.Email <;> simp [h, errorfW, GoError.Error]

theorem presentSelected_events (env : Env) (selectedAlias : Option MaskedEmailInfo)
    (before : List Event) :
    ∃ tail, (presentSelected env selectedAlias before).2 = before ++ tail ∧
      ∀ e ∈ tail, isLocal e = true := by
  cases selectedAlias with
  | none => exact ⟨[], by simp [presentSelected], by simp⟩
  | some sel =>
    refine ⟨[presentLine sel, Event.ClipboardWriteAll sel.Email,
      clipboardReport env sel.Email], by rw [presentSelected_some], ?_⟩
    intro e he
    simp only [List.mem_cons, List.mem_singleton, List.not_mem_nil, or_false] at he
    rcases he with rfl | rfl | rfl
    · rfl
    · rfl
    · unfold clipboardReport
      cases env.ClipboardWriteAll sel.Email <;> rfl

theorem stage_messages_ne (x y : String) :
    "failed to get alias: " ++ x ≠ "failed to update alias status: " ++ y := by
  intro h
  have h2 := congrArg String.data h
  rw [String.data_append, String.data_append] at h2
  have a1 : ("failed to get alias: " : String).data =
      'f' :: 'a' :: 'i' :: 'l' :: 'e' :: 'd' :: ' ' :: 't' :: 'o' :: ' ' :: 'g'
        :: "et alias: ".data := by decide
  have a2 : ("failed to update alias status: " : String).data =
      'f' :: 'a' :: 'i' :: 'l' :: 'e' :: 'd' :: ' ' :: 't' :: 'o' :: ' ' :: 'u'
        :: "pdate alias status: ".data := by decide
  rw [a1, a2] at h2
  simp only [List.cons_append, List.cons.injEq, true_and] at h2
  exact absurd h2.1 (by decide)

theorem handleAliasCreation_found (env : Env) (client : FastmailClient) (identifier : String)
    (first : MaskedEmailInfo) (rest : List MaskedEmailInfo)
    (hget : client.GetAliases identifier = .ok (first :: rest)) :
    ∃ (sel : MaskedEmailInfo) (before : List Event),
      sel ∈ first :: rest ∧
      (selectPreferredAlias (first :: rest)).deref = some sel ∧
      (∀ e ∈ before, isLocal e = true) ∧
      handleAliasCreation env client identifier =
        (.returned none,
          Event.GetAliases identifier :: (before ++ [presentLine sel,
            Event.ClipboardWriteAll sel.Email, clipboardReport env sel.Email])) := by
  obtain ⟨k, hk, sel, hsel, _, _⟩ := selectPreferredAlias_cons_isFirstMin first rest
  have hderef := selectPreferredAlias_deref_of_isFirstMin _ k sel hk hsel
  have hal : (selectPreferredAlias (first :: rest)).aliases = first :: rest := rfl
  have hev : (selectPreferredAlias (first :: rest)).events = warnUnknownStates (first :: rest) :=
    rfl
  by_cases hlen : (first :: rest).length > 1
  · refine ⟨sel, warnUnknownStates (first :: rest) ++ listFound (first :: rest) identifier,
      List.getElem?_mem hsel, hderef, ?_, ?_⟩
    · intro e he
      rcases List.mem_append.1 he with h | h
      · exact warnUnknownStates_local _ e h
      · exact listFound_local _ _ e h
    · unfold handleAliasCreation
      simp only [hget, hk, hal, hev, hderef, if_pos hlen, presentSelected_some]
      simp
  · refine ⟨sel, warnUnknownStates (first :: rest), List.getElem?_mem hsel, hderef,
      warnUnknownStates_local _, ?_⟩
    unfold handleAliasCreation
    simp only [hget, hk, hal, hev, hderef, if_neg hlen, presentSelected_some]
    simp

theorem handleAliasCreation_empty (env : Env) (client : FastmailClient) (identifier : String)
    (hget : client.GetAliases identifier = .ok []) :
    handleAliasCreation env client identifier =
      match client.CreateAlias identifier with
      | .error err =>
        (.returned (some (errorfW "failed to create alias: " err)),
          [Event.GetAliases identifier,
            Event.Stdout ("No alias found for " ++ identifier ++ ", creating new one...\n"),
            Event.CreateAlias identifier])
      | .ok newAlias =>
        presentSelected env newAlias
          [Event.GetAliases identifier,
            Event.Stdout ("No alias found for " ++ identifier ++ ", creating new one...\n"),
            Event.CreateAlias identifier] := by
  unfold handleAliasCreation
  simp only [hget, selectPreferredAlias]
  cases client.CreateAlias identifier <;> rfl

theorem handleAliasCreation_no_update (env : Env) (client : FastmailClient)
    (identifier : String) :
    updateRequests (handleAliasCreation env client identifier).2 = [] := by
  cases hget : client.GetAliases identifier with
  | error err =>
    unfold handleAliasCreation
    simp only [hget]
    rfl
  | ok aliases =>
    cases aliases with
    | nil =>
      rw [handleAliasCreation_empty env client identifier hget]
      cases client.CreateAlias identifier with
      | error err => rfl
      | ok newAlias =>
        obtain ⟨tail, htail, hlocal⟩ := presentSelected_events env newAlias
          [Event.GetAliases identifier,
            Event.Stdout ("No alias found for " ++ identifier ++ ", creating new one...\n"),
            Event.CreateAlias identifier]
        simp only [htail, updateRequests_append, (no_requests_of_local tail hlocal).1]
        rfl
    | cons first rest =>
      obtain ⟨sel, before, _, _, hlocal, hrun⟩ :=
        handleAliasCreation_found env client identifier first rest hget
      have htail : ∀ e ∈ [presentLine sel, Event.ClipboardWriteAll sel.Email,
          clipboardReport env sel.Email], isLocal e = true := by
        intro e he
        simp only [List.mem_cons, List.mem_singleton, List.not_mem_nil, or_false] at he
        rcases he with rfl | rfl | rfl
        · rfl
        · rfl
        · unfold clipboardReport
          cases env.ClipboardWriteAll sel.Email <;> rfl
      rw [hrun]
      show updateRequests ([Event.GetAliases identifier] ++ (before ++ _)) = []
      simp only [updateRequests_append, (no_requests_of_local before hlocal).1,
        (no_requests_of_local _ htail).1]
      rfl

theorem handleStateUpdate_no_search (client : FastmailClient) (identifier : String)
    (enable disable delete : Bool) :
    searchRequests (handleStateUpdate client identifier enable disable delete).2 = [] ∧
    createRequests (handleStateUpdate client identifier enable disable delete).2 = [] := by
  unfold handleStateUpdate
  cases client.GetAliasByEmail identifier with
  | error err => exact ⟨rfl, rfl⟩
  | ok target =>
    simp only []
    cases client.UpdateAliasStatus target (newStateOf enable disable delete) <;>
      exact ⟨rfl, rfl⟩

theorem clipboardReport_of_copy (env : Env) (email : String) :
    (∀ cerr, (copyToClipboard env email).1 = some cerr →
      clipboardReport env email =
        Event.Stderr ("\nWarning: Could not copy to clipboard: " ++ cerr.Error ++ "\n")) ∧
    ((copyToClipboard env email).1 = none →
      clipboardReport env email = Event.Stdout " (copied to clipboard)\n") := by
  unfold copyToClipboard clipboardReport
  cases env.ClipboardWriteAll email with
  | none => simp
  | some e =>
    simp only [Option.some.injEq, reduceCtorEq, false_implies, and_true]
    intro cerr h
    subst h
    rfl

/-! ## The selector: claims C1, C2, C7, C8, C10 -/

/-- C1: for every non-empty list of aliases whose states are all among Enabled, Pending,
Disabled and Deleted, `selectPreferredAlias` returns a pointer to the element at the
smallest index whose `statePriority` entry is the minimum over the list; the entries are
Enabled 0, Pending 1, Disabled 2, Deleted 3; for the states Disabled, Enabled, Pending it
returns the Enabled element and for Deleted, Disabled the Disabled one. -/
theorem selectPreferredAlias_known_first_min :
    (∀ aliases : List MaskedEmailInfo, aliases ≠ [] →
      (∀ a ∈ aliases, a.State ∈ knownStates) →
      ∃ (i : Nat) (sel : MaskedEmailInfo) (p : Int),
        (selectPreferredAlias aliases).selected = some i ∧
        aliases[i]? = some sel ∧
        (selectPreferredAlias aliases).deref = some sel ∧
        statePriority.lookup sel.State = some p ∧
        (∀ (j : Nat) (b : MaskedEmailInfo), aliases[j]? = some b →
          ∃ q, statePriority.lookup b.State = some q ∧ p ≤ q) ∧
        (∀ (j : Nat) (b : MaskedEmailInfo), j < i → aliases[j]? = some b →
          ∃ q, statePriority.lookup b.State = some q ∧ p < q)) ∧
    (statePriority.lookup AliasEnabled = some 0 ∧ statePriority.lookup AliasPending = some 1 ∧
      statePriority.lookup AliasDisabled = some 2 ∧ statePriority.lookup AliasDeleted = some 3) ∧
    (∀ e1 e2 e3 : String,
      (selectPreferredAlias
        [⟨e1, AliasDisabled⟩, ⟨e2, AliasEnabled⟩, ⟨e3, AliasPending⟩]).deref
        = some ⟨e2, AliasEnabled⟩) ∧
    (∀ e1 e2 : String,
      (selectPreferredAlias [⟨e1, AliasDeleted⟩, ⟨e2, AliasDisabled⟩]).deref
        = some ⟨e2, AliasDisabled⟩) := by
  refine ⟨?_, by decide, ?_, ?_⟩
  · intro aliases hne hknown
    cases aliases with
    | nil => exact absurd rfl hne
    | cons first rest =>
      obtain ⟨k, hk, sel, hsel, hmin, hfirst⟩ := selectPreferredAlias_cons_isFirstMin first rest
      have hmem : ∀ (j : Nat) (b : MaskedEmailInfo), (first :: rest)[j]? = some b →
          statePriority.lookup b.State = some (priorityOf b) := by
        intro j b hb
        exact lookup_of_known b.State (hknown b (List.getElem?_mem hb))
      refine ⟨k, sel, priorityOf sel, hk, hsel,
        selectPreferredAlias_deref_of_isFirstMin _ k sel hk hsel, hmem k sel hsel, ?_, ?_⟩
      · intro j b hb
        exact ⟨priorityOf b, hmem j b hb, hmin j b hb⟩
      · intro j b hj hb
        exact ⟨priorityOf b, hmem j b hb, hfirst j b hj hb⟩
  · intro e1 e2 e3
    rfl
  · intro e1 e2
    rfl

/-- Witness of C1 on the states Disabled, Enabled, Pending. -/
theorem selectPreferredAlias_known_first_min_witness :
    ∃ (i : Nat) (sel : MaskedEmailInfo) (p : Int),
      (selectPreferredAlias
        [⟨"a@fastmail.com", AliasDisabled⟩, ⟨"b@fastmail.com", AliasEnabled⟩,
          ⟨"c@fastmail.com", AliasPending⟩]).selected = some i ∧
      [(⟨"a@fastmail.com", AliasDisabled⟩ : MaskedEmailInfo), ⟨"b@fastmail.com", AliasEnabled⟩,
          ⟨"c@fastmail.com", AliasPending⟩][i]? = some sel ∧
      (selectPreferredAlias
        [⟨"a@fastmail.com", AliasDisabled⟩, ⟨"b@fastmail.com", AliasEnabled⟩,
          ⟨"c@fastmail.com", AliasPending⟩]).deref = some sel ∧
      statePriority.lookup sel.State = some p ∧
      (∀ (j : Nat) (b : MaskedEmailInfo),
        [(⟨"a@fastmail.com", AliasDisabled⟩ : MaskedEmailInfo), ⟨"b@fastmail.com", AliasEnabled⟩,
          ⟨"c@fastmail.com", AliasPending⟩][j]? = some b →
        ∃ q, statePriority.lookup b.State = some q ∧ p ≤ q) ∧
      (∀ (j : Nat) (b : MaskedEmailInfo), j < i →
        [(⟨"a@fastmail.com", AliasDisabled⟩ : MaskedEmailInfo), ⟨"b@fastmail.com", AliasEnabled⟩,
          ⟨"c@fastmail.com", AliasPending⟩][j]? = some b →
        ∃ q, statePriority.lookup b.State = some q ∧ p < q) :=
  selectPreferredAlias_known_first_min.1
    [⟨"a@fastmail.com", AliasDisabled⟩, ⟨"b@fastmail.com", AliasEnabled⟩,
      ⟨"c@fastmail.com", AliasPending⟩]
    (by decide) (by decide)

/-- C2, evaluated on the code: for the list of an alias in the unrecognized state
`archived` followed by an Enabled alias, `selectPreferredAlias` returns the alias in the
unrecognized state although it is not the sole item. -/
theorem selectPreferredAlias_unknown_beats_enabled :
    "archived" ∉ knownStates ∧
    (selectPreferredAlias
      [⟨"x@fastmail.com", "archived"⟩, ⟨"y@fastmail.com", AliasEnabled⟩]).selected = some 0 ∧
    (selectPreferredAlias
      [⟨"x@fastmail.com", "archived"⟩, ⟨"y@fastmail.com", AliasEnabled⟩]).deref
      = some ⟨"x@fastmail.com", "archived"⟩ := by
  decide

/-- C7: `selectPreferredAlias` returns nil for the empty list, and for every non-empty
list it returns a non-nil pointer, which points at an element of the list. -/
theorem selectPreferredAlias_nil_iff_empty :
    (selectPreferredAlias []).selected = none ∧
    ∀ aliases : List MaskedEmailInfo, aliases ≠ [] →
      (selectPreferredAlias aliases).selected ≠ none ∧
      ∃ a ∈ aliases, (selectPreferredAlias aliases).deref = some a := by
  refine ⟨rfl, ?_⟩
  intro aliases hne
  cases aliases with
  | nil => exact absurd rfl hne
  | cons first rest =>
    obtain ⟨k, hk, sel, hsel, _, _⟩ := selectPreferredAlias_cons_isFirstMin first rest
    refine ⟨by simp [hk], sel, List.getElem?_mem hsel, ?_⟩
    exact selectPreferredAlias_deref_of_isFirstMin _ k sel hk hsel

/-- Witness of C7 on a list of two aliases. -/
theorem selectPreferredAlias_nil_iff_empty_witness :
    (selectPreferredAlias
      [⟨"a@fastmail.com", AliasDeleted⟩, ⟨"b@fastmail.com", AliasDisabled⟩]).selected ≠ none ∧
    ∃ a ∈ [(⟨"a@fastmail.com", AliasDeleted⟩ : MaskedEmailInfo),
        ⟨"b@fastmail.com", AliasDisabled⟩],
      (selectPreferredAlias
        [⟨"a@fastmail.com", AliasDeleted⟩, ⟨"b@fastmail.com", AliasDisabled⟩]).deref = some a :=
  selectPreferredAlias_nil_iff_empty.2
    [⟨"a@fastmail.com", AliasDeleted⟩, ⟨"b@fastmail.com", AliasDisabled⟩] (by decide)

/-- C8: for every alias `a`, whatever its state, `selectPreferredAlias` on the list of
`a` alone returns the pointer to its element 0, which is `a` itself, and the slice still
holds exactly `a` on return. -/
theorem selectPreferredAlias_singleton (a : MaskedEmailInfo) :
    (selectPreferredAlias [a]).selected = some 0 ∧
    (selectPreferredAlias [a]).deref = some a ∧
    (selectPreferredAlias [a]).aliases = [a] :=
  ⟨rfl, rfl, rfl⟩

/-- C10: `selectPreferredAlias` reads an unrecognized state as priority 0: for every
non-empty list it returns the pointer to the smallest index that attains the minimum of
`defaultZeroPriority`, the table value for a known state and 0 for any other; so an
alias in an unrecognized state wins over a recognized one, as in the lists of an unknown
state followed by Enabled and of Pending followed by an unknown state. -/
theorem selectPreferredAlias_default_zero :
    (∀ aliases : List MaskedEmailInfo, aliases ≠ [] →
      ∃ (i : Nat) (sel : MaskedEmailInfo),
        (selectPreferredAlias aliases).selected = some i ∧
        aliases[i]? = some sel ∧
        (selectPreferredAlias aliases).deref = some sel ∧
        (∀ (j : Nat) (b : MaskedEmailInfo), aliases[j]? = some b →
          defaultZeroPriority sel.State ≤ defaultZeroPriority b.State) ∧
        (∀ (j : Nat) (b : MaskedEmailInfo), j < i → aliases[j]? = some b →
          defaultZeroPriority sel.State < defaultZeroPriority b.State)) ∧
    (∀ s : AliasState, s ∉ knownStates → mapIndex statePriority s = 0) ∧
    (∀ (u : AliasState) (e1 e2 : String), u ∉ knownStates →
      (selectPreferredAlias [⟨e1, u⟩, ⟨e2, AliasEnabled⟩]).deref = some ⟨e1, u⟩) ∧
    (∀ (u : AliasState) (e1 e2 : String), u ∉ knownStates →
      (selectPreferredAlias [⟨e1, AliasPending⟩, ⟨e2, u⟩]).deref = some ⟨e2, u⟩) := by
  have hzero : ∀ s : AliasState, s ∉ knownStates → mapIndex statePriority s = 0 := by
    intro s hs
    simp [mapIndex, lookup_of_unknown s hs]
  refine ⟨?_, hzero, ?_, ?_⟩
  · intro aliases hne
    cases aliases with
    | nil => exact absurd rfl hne
    | cons first rest =>
      obtain ⟨k, hk, sel, hsel, hmin, hfirst⟩ := selectPreferredAlias_cons_isFirstMin first rest
      refine ⟨k, sel, hk, hsel, selectPreferredAlias_deref_of_isFirstMin _ k sel hk hsel, ?_, ?_⟩
      · intro j b hb
        have h := hmin j b hb
        simpa [priorityOf, mapIndex_statePriority] using h
      · intro j b hj hb
        have h := hfirst j b hj hb
        simpa [priorityOf, mapIndex_statePriority] using h
  · intro u e1 e2 hu
    have h1 : mapIndex statePriority AliasEnabled = 0 := by decide
    simp [selectPreferredAlias, SelectResult.deref, selectLoop, hzero u hu, h1]
  · intro u e1 e2 hu
    have h1 : mapIndex statePriority AliasPending = 1 := by decide
    simp [selectPreferredAlias, SelectResult.deref, selectLoop, hzero u hu, h1]

/-- Witness of C10 on the list of an alias in the unrecognized state `archived`
followed by an Enabled alias. -/
theorem selectPreferredAlias_default_zero_witness :
    ∃ (i : Nat) (sel : MaskedEmailInfo),
      (selectPreferredAlias
        [⟨"x@fastmail.com", "archived"⟩, ⟨"y@fastmail.com", AliasEnabled⟩]).selected = some i ∧
      [(⟨"x@fastmail.com", "archived"⟩ : MaskedEmailInfo),
        ⟨"y@fastmail.com", AliasEnabled⟩][i]? = some sel ∧
      (selectPreferredAlias
        [⟨"x@fastmail.com", "archived"⟩, ⟨"y@fastmail.com", AliasEnabled⟩]).deref = some sel ∧
      (∀ (j : Nat) (b : MaskedEmailInfo),
        [(⟨"x@fastmail.com", "archived"⟩ : MaskedEmailInfo),
          ⟨"y@fastmail.com", AliasEnabled⟩][j]? = some b →
        defaultZeroPriority sel.State ≤ defaultZeroPriority b.State) ∧
      (∀ (j : Nat) (b : MaskedEmailInfo), j < i →
        [(⟨"x@fastmail.com", "archived"⟩ : MaskedEmailInfo),
          ⟨"y@fastmail.com", AliasEnabled⟩][j]? = some b →
        defaultZeroPriority sel.State < defaultZeroPriority b.State) :=
  selectPreferredAlias_default_zero.1
    [⟨"x@fastmail.com", "archived"⟩, ⟨"y@fastmail.com", AliasEnabled⟩] (by decide)

/-! ## The state update: claims C3, C4 -/

/-- C3: when the lookup by address succeeds with the alias pointer `target` and exactly
one of the flags enable, disable, delete is set, `handleStateUpdate` issues exactly one
update request; it is `UpdateAliasStatus(target, s)` with `s` Enabled for enable, Disabled
for disable and Deleted for delete, and `s` is never Pending. -/
theorem handleStateUpdate_one_request (client : FastmailClient) (identifier : String)
    (enable disable delete : Bool) (target : Option MaskedEmailInfo)
    (hlookup : client.GetAliasByEmail identifier = .ok target)
    (hone : exactlyOne enable disable delete) :
    ∃ s : AliasState,
      updateRequests (handleStateUpdate client identifier enable disable delete).2
        = [(target, s)] ∧
      (handleStateUpdate client identifier enable disable delete).2
        = [Event.GetAliasByEmail identifier, Event.UpdateAliasStatus target s] ∧
      (enable = true → s = AliasEnabled) ∧
      (disable = true → s = AliasDisabled) ∧
      (delete = true → s = AliasDeleted) ∧
      s ≠ AliasPending := by
  refine ⟨newStateOf enable disable delete, ?_, ?_, ?_, ?_, ?_, ?_⟩
  · unfold handleStateUpdate
    simp only [hlookup]
    cases client.UpdateAliasStatus target (newStateOf enable disable delete) <;> rfl
  · unfold handleStateUpdate
    simp only [hlookup]
    cases client.UpdateAliasStatus target (newStateOf enable disable delete) <;> rfl
  · rcases hone with ⟨h1, h2, h3⟩ | ⟨h1, h2, h3⟩ | ⟨h1, h2, h3⟩ <;> subst h1 h2 h3 <;> decide
  · rcases hone with ⟨h1, h2, h3⟩ | ⟨h1, h2, h3⟩ | ⟨h1, h2, h3⟩ <;> subst h1 h2 h3 <;> decide
  · rcases hone with ⟨h1, h2, h3⟩ | ⟨h1, h2, h3⟩ | ⟨h1, h2, h3⟩ <;> subst h1 h2 h3 <;> decide
  · rcases hone with ⟨h1, h2, h3⟩ | ⟨h1, h2, h3⟩ | ⟨h1, h2, h3⟩ <;> subst h1 h2 h3 <;> decide

/-- Witness of C3: the disable flag on the sample provider. -/
theorem handleStateUpdate_one_request_witness :
    ∃ s : AliasState,
      updateRequests
        (handleStateUpdate sampleClient "shop.1234@fastmail.com" false true false).2
        = [(some sampleAlias, s)] ∧
      (handleStateUpdate sampleClient "shop.1234@fastmail.com" false true false).2
        = [Event.GetAliasByEmail "shop.1234@fastmail.com",
            Event.UpdateAliasStatus (some sampleAlias) s] ∧
      (false = true → s = AliasEnabled) ∧
      (true = true → s = AliasDisabled) ∧
      (false = true → s = AliasDeleted) ∧
      s ≠ AliasPending :=
  handleStateUpdate_one_request sampleClient "shop.1234@fastmail.com" false true false
    (some sampleAlias) rfl (Or.inr (Or.inl ⟨rfl, rfl, rfl⟩))

/-- C4: when the lookup by address fails with error `e`, `handleStateUpdate` issues no
update request (its only event is the lookup) and returns an error whose message is
`failed to get alias: ` followed by the message of `e` and which wraps `e`; the error
returned when the lookup succeeds and the update fails has the message
`failed to update alias status: ` followed by the message of the update error, and it
differs from the lookup error both as a value and in its message. -/
theorem handleStateUpdate_lookup_failure (client : FastmailClient) (identifier : String)
    (enable disable delete : Bool) (e : GoError)
    (hfail : client.GetAliasByEmail identifier = .error e) :
    (handleStateUpdate client identifier enable disable delete).2
      = [Event.GetAliasByEmail identifier] ∧
    updateRequests (handleStateUpdate client identifier enable disable delete).2 = [] ∧
    ∃ err : GoError,
      (handleStateUpdate client identifier enable disable delete).1 = some err ∧
      err.Error = "failed to get alias: " ++ e.Error ∧
      err.Unwrap = some e ∧
      ∀ (client2 : FastmailClient) (identifier2 : String) (enable2 disable2 delete2 : Bool)
        (target : Option MaskedEmailInfo) (e2 : GoError),
        client2.GetAliasByEmail identifier2 = .ok target →
        client2.UpdateAliasStatus target (newStateOf enable2 disable2 delete2) = some e2 →
        ∃ err2 : GoError,
          (handleStateUpdate client2 identifier2 enable2 disable2 delete2).1 = some err2 ∧
          err2.Error = "failed to update alias status: " ++ e2.Error ∧
          err2.Unwrap = some e2 ∧
          err2 ≠ err ∧ err2.Error ≠ err.Error := by
  have hr : handleStateUpdate client identifier enable disable delete =
      (some (errorfW "failed to get alias: " e), [Event.GetAliasByEmail identifier]) := by
    unfold handleStateUpdate
    simp only [hfail]
  rw [hr]
  refine ⟨rfl, rfl, errorfW "failed to get alias: " e, rfl, rfl, rfl, ?_⟩
  intro client2 identifier2 enable2 disable2 delete2 target e2 hok hupd
  have hr2 : handleStateUpdate client2 identifier2 enable2 disable2 delete2 =
      (some (errorfW "failed to update alias status: " e2),
        [Event.GetAliasByEmail identifier2,
          Event.UpdateAliasStatus target (newStateOf enable2 disable2 delete2)]) := by
    unfold handleStateUpdate
    simp only [hok, hupd]
  rw [hr2]
  have hmsg : (errorfW "failed to update alias status: " e2).Error
      ≠ (errorfW "failed to get alias: " e).Error := by
    intro h
    exact stage_messages_ne e.Error e2.Error h.symm
  refine ⟨errorfW "failed to update alias status: " e2, rfl, rfl, rfl, ?_, hmsg⟩
  intro h
  exact hmsg (congrArg GoError.Error h)

/-- Witness of C4: the enable flag on the provider whose lookup fails. -/
theorem handleStateUpdate_lookup_failure_witness :
    (handleStateUpdate lookupFailingClient "gone@fastmail.com" true false false).2
      = [Event.GetAliasByEmail "gone@fastmail.com"] ∧
    updateRequests
      (handleStateUpdate lookupFailingClient "gone@fastmail.com" true false false).2 = [] ∧
    ∃ err : GoError,
      (handleStateUpdate lookupFailingClient "gone@fastmail.com" true false false).1
        = some err ∧
      err.Error = "failed to get alias: " ++ (GoError.external "alias not found").Error ∧
      err.Unwrap = some (GoError.external "alias not found") ∧
      ∀ (client2 : FastmailClient) (identifier2 : String) (enable2 disable2 delete2 : Bool)
        (target : Option MaskedEmailInfo) (e2 : GoError),
        client2.GetAliasByEmail identifier2 = .ok target →
        client2.UpdateAliasStatus target (newStateOf enable2 disable2 delete2) = some e2 →
        ∃ err2 : GoError,
          (handleStateUpdate client2 identifier2 enable2 disable2 delete2).1 = some err2 ∧
          err2.Error = "failed to update alias status: " ++ e2.Error ∧
          err2.Unwrap = some e2 ∧
          err2 ≠ err ∧ err2.Error ≠ err.Error :=
  handleStateUpdate_lookup_failure lookupFailingClient "gone@fastmail.com" true false false
    (GoError.external "alias not found") rfl

/-! ## Creation and lookup: claims C5, C6 -/

/-- C5: when `GetAliases` succeeds with an empty list, `handleAliasCreation` calls
`CreateAlias(identifier)` exactly once; when that call succeeds with alias `n`, the alias
printed and written to the clipboard is `n` (its email and state) and no error is
returned; when `GetAliases` returns a non-empty list, `CreateAlias` is never called. -/
theorem handleAliasCreation_creates_iff_none :
    (∀ (env : Env) (client : FastmailClient) (identifier : String),
      client.GetAliases identifier = .ok [] →
      createRequests (handleAliasCreation env client identifier).2 = [identifier] ∧
      ∀ n : MaskedEmailInfo, client.CreateAlias identifier = .ok (some n) →
        handleAliasCreation env client identifier =
          (.returned none,
            [Event.GetAliases identifier,
              Event.Stdout ("No alias found for " ++ identifier ++ ", creating new one...\n"),
              Event.CreateAlias identifier,
              Event.Stdout (n.Email ++ " (state: " ++ n.State ++ ")"),
              Event.ClipboardWriteAll n.Email,
              clipboardReport env n.Email])) ∧
    (∀ (env : Env) (client : FastmailClient) (identifier : String)
      (aliases : List MaskedEmailInfo), aliases ≠ [] →
      client.GetAliases identifier = .ok aliases →
      createRequests (handleAliasCreation env client identifier).2 = []) := by
  constructor
  · intro env client identifier hget
    rw [handleAliasCreation_empty env client identifier hget]
    constructor
    · cases client.CreateAlias identifier with
      | error err => rfl
      | ok newAlias =>
        obtain ⟨tail, htail, hlocal⟩ := presentSelected_events env newAlias
          [Event.GetAliases identifier,
            Event.Stdout ("No alias found for " ++ identifier ++ ", creating new one...\n"),
            Event.CreateAlias identifier]
        simp only [htail, createRequests_append, (no_requests_of_local tail hlocal).2.1]
        rfl
    · intro n hn
      simp only [hn, presentSelected_some]
      rfl
  · intro env client identifier aliases hne hget
    cases aliases with
    | nil => exact absurd rfl hne
    | cons first rest =>
      obtain ⟨sel, before, _, _, hlocal, hrun⟩ :=
        handleAliasCreation_found env client identifier first rest hget
      obtain ⟨tail, htail, htlocal⟩ := presentSelected_events env (some sel) before
      rw [presentSelected_some] at htail
      have hbt := List.append_cancel_left htail
      rw [hrun]
      show createRequests ([Event.GetAliases identifier] ++ (before ++ _)) = []
      rw [hbt]
      simp only [createRequests_append, (no_requests_of_local before hlocal).2.1,
        (no_requests_of_local tail htlocal).2.1]
      rfl

/-- Witness of C5: the sample provider finds no alias and creates one. -/
theorem handleAliasCreation_creates_iff_none_witness :
    createRequests (handleAliasCreation sampleEnv sampleClient "example.com").2
      = ["example.com"] ∧
    ∀ n : MaskedEmailInfo, sampleClient.CreateAlias "example.com" = .ok (some n) →
      handleAliasCreation sampleEnv sampleClient "example.com" =
        (.returned none,
          [Event.GetAliases "example.com",
            Event.Stdout ("No alias found for " ++ "example.com" ++ ", creating new one...\n"),
            Event.CreateAlias "example.com",
            Event.Stdout (n.Email ++ " (state: " ++ n.State ++ ")"),
            Event.ClipboardWriteAll n.Email,
            clipboardReport sampleEnv n.Email]) :=
  handleAliasCreation_creates_iff_none.1 sampleEnv sampleClient "example.com" rfl

/-- C6: when the provider calls of `handleAliasCreation` succeed (`GetAliases`, and
`CreateAlias` with a non-nil alias when the list is empty), `handleAliasCreation`
returns no error whatever `clipboard.WriteAll` answers: the run ends with the line
presenting the selected alias, the clipboard write of its address and, when
`copyToClipboard` returns an error, a warning on stderr carrying its message, and the
confirmation on stdout otherwise. -/
theorem handleAliasCreation_clipboard_not_fatal (env : Env) (client : FastmailClient)
    (identifier : String) (aliases : List MaskedEmailInfo)
    (hget : client.GetAliases identifier = .ok aliases)
    (hcreate : aliases = [] → ∃ n, client.CreateAlias identifier = .ok (some n)) :
    (handleAliasCreation env client identifier).1 = .returned none ∧
    ∃ (sel : MaskedEmailInfo) (before : List Event) (last : Event),
      (handleAliasCreation env client identifier).2 =
        before ++ [Event.Stdout (sel.Email ++ " (state: " ++ sel.State ++ ")"),
          Event.ClipboardWriteAll sel.Email, last] ∧
      (∀ cerr, (copyToClipboard env sel.Email).1 = some cerr →
        last = Event.Stderr
          ("\nWarning: Could not copy to clipboard: " ++ cerr.Error ++ "\n")) ∧
      ((copyToClipboard env sel.Email).1 = none →
        last = Event.Stdout " (copied to clipboard)\n") := by
  cases aliases with
  | nil =>
    obtain ⟨n, hn⟩ := hcreate rfl
    have hrun : handleAliasCreation env client identifier =
        (.returned none,
          [Event.GetAliases identifier,
            Event.Stdout ("No alias found for " ++ identifier ++ ", creating new one...\n"),
            Event.CreateAlias identifier] ++ [presentLine n,
            Event.ClipboardWriteAll n.Email, clipboardReport env n.Email]) := by
      rw [handleAliasCreation_empty env client identifier hget]
      simp only [hn, presentSelected_some]
    rw [hrun]
    exact ⟨rfl, n, _, clipboardReport env n.Email, rfl,
      (clipboardReport_of_copy env n.Email).1, (clipboardReport_of_copy env n.Email).2⟩
  | cons first rest =>
    obtain ⟨sel, before, _, _, _, hrun⟩ :=
      handleAliasCreation_found env client identifier first rest hget
    rw [hrun]
    exact ⟨rfl, sel, Event.GetAliases identifier :: before, clipboardReport env sel.Email, rfl,
      (clipboardReport_of_copy env sel.Email).1, (clipboardReport_of_copy env sel.Email).2⟩

/-- Witness of C6: two aliases found and a clipboard whose write fails. -/
theorem handleAliasCreation_clipboard_not_fatal_witness :
    (handleAliasCreation clipboardFailingEnv foundClient "shop.example").1 = .returned none ∧
    ∃ (sel : MaskedEmailInfo) (before : List Event) (last : Event),
      (handleAliasCreation clipboardFailingEnv foundClient "shop.example").2 =
        before ++ [Event.Stdout (sel.Email ++ " (state: " ++ sel.State ++ ")"),
          Event.ClipboardWriteAll sel.Email, last] ∧
      (∀ cerr, (copyToClipboard clipboardFailingEnv sel.Email).1 = some cerr →
        last = Event.Stderr
          ("\nWarning: Could not copy to clipboard: " ++ cerr.Error ++ "\n")) ∧
      ((copyToClipboard clipboardFailingEnv sel.Email).1 = none →
        last = Event.Stdout " (copied to clipboard)\n") :=
  handleAliasCreation_clipboard_not_fatal clipboardFailingEnv foundClient "shop.example"
    [sampleAlias, ⟨"shop.9999@fastmail.com", AliasEnabled⟩] rfl (by simp)

/-! ## Routing: claim C9 -/

/-- C9: with exactly one positional argument and a client that was constructed,
`runMaskedFastmail` gives, after the client construction, exactly the result and the
events of `handleStateUpdate` on the identifier and the flags when at least one of the
flags enable, disable, delete is true (no search and no creation is requested), and
exactly those of `handleAliasCreation` on the identifier when all three are false (no
state update is requested); with a number of arguments other than one it returns the
usage error and produces no event: the client is not constructed and no provider call is
made. -/
theorem runMaskedFastmail_routes :
    (∀ (env : Env) (cmd : Command) (identifier : String) (client : FastmailClient),
      env.NewFastmailClient = .ok client →
      ((cmd.GetBool "enable").1 = true ∨ (cmd.GetBool "disable").1 = true ∨
        (cmd.GetBool "delete").1 = true) →
      runMaskedFastmail env cmd [identifier] =
        (.returned (handleStateUpdate client identifier (cmd.GetBool "enable").1
            (cmd.GetBool "disable").1 (cmd.GetBool "delete").1).1,
          Event.NewFastmailClient ::
            (handleStateUpdate client identifier (cmd.GetBool "enable").1
              (cmd.GetBool "disable").1 (cmd.GetBool "delete").1).2) ∧
      searchRequests (runMaskedFastmail env cmd [identifier]).2 = [] ∧
      createRequests (runMaskedFastmail env cmd [identifier]).2 = []) ∧
    (∀ (env : Env) (cmd : Command) (identifier : String) (client : FastmailClient),
      env.NewFastmailClient = .ok client →
      (cmd.GetBool "enable").1 = false → (cmd.GetBool "disable").1 = false →
      (cmd.GetBool "delete").1 = false →
      runMaskedFastmail env cmd [identifier] =
        ((handleAliasCreation env client identifier).1,
          Event.NewFastmailClient :: (handleAliasCreation env client identifier).2) ∧
      updateRequests (runMaskedFastmail env cmd [identifier]).2 = []) ∧
    (∀ (env : Env) (cmd : Command) (args : List String), args.length ≠ 1 →
      runMaskedFastmail env cmd args =
        (.returned (some (.errorString
          ("exactly one URL or alias must be specified\n\n" ++ cmd.UsageString))), [])) := by
  refine ⟨?_, ?_, ?_⟩
  · intro env cmd identifier client hclient hflag
    have hor : ((cmd.GetBool "enable").1 || (cmd.GetBool "disable").1 ||
        (cmd.GetBool "delete").1) = true := by
      rcases hflag with h | h | h <;> simp [h]
    have hrun : runMaskedFastmail env cmd [identifier] =
        (.returned (handleStateUpdate client identifier (cmd.GetBool "enable").1
            (cmd.GetBool "disable").1 (cmd.GetBool "delete").1).1,
          Event.NewFastmailClient ::
            (handleStateUpdate client identifier (cmd.GetBool "enable").1
              (cmd.GetBool "disable").1 (cmd.GetBool "delete").1).2) := by
      unfold runMaskedFastmail
      simp only [List.length_singleton, ne_eq, not_true_eq_false, if_false, hclient, hor,
        if_true]
      rfl
    refine ⟨hrun, ?_, ?_⟩
    · rw [hrun]
      exact (handleStateUpdate_no_search client identifier _ _ _).1
    · rw [hrun]
      exact (handleStateUpdate_no_search client identifier _ _ _).2
  · intro env cmd identifier client hclient he hd hx
    have hrun : runMaskedFastmail env cmd [identifier] =
        ((handleAliasCreation env client identifier).1,
          Event.NewFastmailClient :: (handleAliasCreation env client identifier).2) := by
      unfold runMaskedFastmail
      simp only [List.length_singleton, ne_eq, not_true_eq_false, if_false, hclient, he, hd,
        hx, Bool.or_self, Bool.false_eq_true]
      rfl
    refine ⟨hrun, ?_⟩
    rw [hrun]
    exact handleAliasCreation_no_update env client identifier
  · intro env cmd args hlen
    unfold runMaskedFastmail
    rw [if_pos hlen]

/-- Witness of C9: the disable flag with one argument, and a run without arguments. -/
theorem runMaskedFastmail_routes_witness :
    (runMaskedFastmail sampleEnv (sampleCommand false true false) ["shop.1234@fastmail.com"] =
        (.returned (handleStateUpdate sampleClient "shop.1234@fastmail.com"
            ((sampleCommand false true false).GetBool "enable").1
            ((sampleCommand false true false).GetBool "disable").1
            ((sampleCommand false true false).GetBool "delete").1).1,
          Event.NewFastmailClient ::
            (handleStateUpdate sampleClient "shop.1234@fastmail.com"
              ((sampleCommand false true false).GetBool "enable").1
              ((sampleCommand false true false).GetBool "disable").1
              ((sampleCommand false true false).GetBool "delete").1).2) ∧
      searchRequests (runMaskedFastmail sampleEnv (sampleCommand false true false)
        ["shop.1234@fastmail.com"]).2 = [] ∧
      createRequests (runMaskedFastmail sampleEnv (sampleCommand false true false)
        ["shop.1234@fastmail.com"]).2 = []) ∧
    (runMaskedFastmail sampleEnv (sampleCommand false false false) ["example.com"] =
        ((handleAliasCreation sampleEnv sampleClient "example.com").1,
          Event.NewFastmailClient ::
            (handleAliasCreation sampleEnv sampleClient "example.com").2) ∧
      updateRequests (runMaskedFastmail sampleEnv (sampleCommand false false false)
        ["example.com"]).2 = []) ∧
    runMaskedFastmail sampleEnv (sampleCommand false false false) [] =
      (.returned (some (.errorString
        ("exactly one URL or alias must be specified\n\n"
          ++ (sampleCommand false false false).UsageString))), []) :=
  ⟨runMaskedFastmail_routes.1 sampleEnv (sampleCommand false true false)
      "shop.1234@fastmail.com" sampleClient rfl (Or.inr (Or.inl (by decide))),
    runMaskedFastmail_routes.2.1 sampleEnv (sampleCommand false false false) "example.com"
      sampleClient rfl (by decide) (by decide) (by decide),
    runMaskedFastmail_routes.2.2 sampleEnv (sampleCommand false false false) [] (by decide)⟩

end MaskedFastmail
